import Mathlib

set_option autoImplicit false

/-!
Verification development for the Minion-Orchestra agent registry
(packages/server).  Python source is embedded shallowly: dictionaries
become association lists or fixed-field structures, timestamps become
rationals (seconds), truthiness tests are spelled out explicitly, and
every definition is annotated with the source lines it translates.
-/

namespace MinionOrchestra

/-! ## Task queue (services.py, class TaskQueue, lines 327-363)

The queue is a Python dict with the four fixed keys
pending / inProgress / completed / failed (line 329); keys are never
added or removed, so it is embedded as a four-field structure together
with dict-style lookup (`key in self.queue`) and update operations.
Counts are embedded as integers so that non-negativity is a real
property rather than a consequence of the type. -/

structure TaskQueue where
  pending : Int
  inProgress : Int
  completed : Int
  failed : Int
  deriving DecidableEq, Repr

/-- services.py line 329: initial queue, all four buckets zero. -/
def TaskQueue.init : TaskQueue := ⟨0, 0, 0, 0⟩

/-- Dict lookup on the four fixed keys; `none` plays the role of the
`key in self.queue` test failing. -/
def TaskQueue.lookup (q : TaskQueue) (k : String) : Option Int :=
  if k = "pending" then some q.pending
  else if k = "inProgress" then some q.inProgress
  else if k = "completed" then some q.completed
  else if k = "failed" then some q.failed
  else none

/-- Value of bucket `k` (Python `self.queue[key]`, only reached after a
`key in self.queue` test). -/
def TaskQueue.get (q : TaskQueue) (k : String) : Int :=
  (q.lookup k).getD 0

/-- Dict store `self.queue[key] = v` on the four fixed keys. -/
def TaskQueue.setKey (q : TaskQueue) (k : String) (v : Int) : TaskQueue :=
  if k = "pending" then { q with pending := v }
  else if k = "inProgress" then { q with inProgress := v }
  else if k = "completed" then { q with completed := v }
  else if k = "failed" then { q with failed := v }
  else q

/-- services.py lines 360-363, `TaskQueue._normalize`: the fixed
status-string → bucket-name table, `.get` returning `None` off-table. -/
def normalize (status : String) : Option String :=
  if status = "pending" then some "pending"
  else if status = "working" then some "inProgress"
  else if status = "in_progress" then some "inProgress"
  else if status = "inProgress" then some "inProgress"
  else if status = "completed" then some "completed"
  else if status = "failed" then some "failed"
  else none

/-- services.py lines 350-353, `TaskQueue._increment`:
`if key and key in self.queue: self.queue[key] += 1`.
(`key` is truthy iff it is a non-None, non-empty string.) -/
def TaskQueue.increment (q : TaskQueue) (status : String) : TaskQueue :=
  match normalize status with
  | none => q
  | some k => if k ≠ "" ∧ (q.lookup k).isSome then q.setKey k (q.get k + 1) else q

/-- services.py lines 355-358, `TaskQueue._decrement`:
`if key and key in self.queue and self.queue[key] > 0: self.queue[key] -= 1`. -/
def TaskQueue.decrement (q : TaskQueue) (status : String) : TaskQueue :=
  match normalize status with
  | none => q
  | some k =>
    if k ≠ "" ∧ (q.lookup k).isSome ∧ q.get k > 0 then q.setKey k (q.get k - 1) else q

/-- One external call to the queue: `increment(status)` or `decrement(status)`
(services.py lines 344-348). -/
inductive QOp where
  | inc (status : String)
  | dec (status : String)
  deriving DecidableEq, Repr

def TaskQueue.applyOp (q : TaskQueue) (op : QOp) : TaskQueue :=
  match op with
  | .inc s => q.increment s
  | .dec s => q.decrement s

def TaskQueue.applyOps (ops : List QOp) (q : TaskQueue) : TaskQueue :=
  ops.foldl TaskQueue.applyOp q

/-- All four buckets non-negative. -/
def TaskQueue.Nonneg (q : TaskQueue) : Prop :=
  0 ≤ q.pending ∧ 0 ≤ q.inProgress ∧ 0 ≤ q.completed ∧ 0 ≤ q.failed

/-! ## Agent record (models.py, class Agent, lines 23-46)

Timestamps are embedded as rationals (seconds); `datetime.now()` becomes
an explicit `now` parameter.  Python dict-valued fields become
association lists.  The last three fields (status_changed_at,
active_duration, parent_pid) are assigned and read by services.py,
routes.py and server.py but are NOT declared on the pydantic model in
models.py; they are included here so the services-layer logic can be
expressed, and their absence from the declared model is recorded in
agentModelFields below. -/

structure AgentMetrics where
  cpu_usage : ℚ := 0
  memory_usage : ℚ := 0
  requests_per_second : ℚ := 0
  average_response_time : ℚ := 0
  deriving DecidableEq, Repr

structure Agent where
  id : String
  socket_id : String
  name : String := "Claude Agent"
  type : String := "claude-code"
  status : String := "idle"
  current_task : Option String := none
  current_tool : Option String := none
  current_tool_description : Option String := none
  start_time : ℚ := 0
  last_activity : ℚ := 0
  progress : Nat := 0
  tokens_used : Nat := 0
  tool_calls : Nat := 0
  logs : List (List (String × String)) := []
  metrics : AgentMetrics := {}
  recent_tools : List String := []
  last_tool_used : Option String := none
  last_tool_time : Option ℚ := none
  pid : Option Nat := none
  session_data : Option (List (String × String)) := none
  working_directory : Option String := none
  status_changed_at : ℚ := 0
  active_duration : Nat := 0
  parent_pid : Option Nat := none
  deriving DecidableEq, Repr

/-- The field names actually declared on the pydantic Agent model
(models.py lines 26-46), in source order. -/
def agentModelFields : List String :=
  ["id", "socket_id", "name", "type", "status", "current_task", "current_tool",
   "current_tool_description", "start_time", "last_activity", "progress",
   "tokens_used", "tool_calls", "logs", "metrics", "recent_tools",
   "last_tool_used", "last_tool_time", "pid", "session_data",
   "working_directory"]

/-- The field names declared on the pydantic HookEvent model
(models.py lines 49-56). -/
def hookEventModelFields : List String :=
  ["eventType", "agentId", "agentName", "timestamp", "pid", "data", "response"]

/-- Agent attributes written by AgentManager.update_agent_status
(services.py lines 278-284): status_changed_at (279), status (280),
last_activity (281), current_task (283), current_tool (284). -/
def updateAgentStatusAttrsWritten : List String :=
  ["status_changed_at", "status", "last_activity", "current_task", "current_tool"]

/-- Agent attributes read by cleanup_dead_agents (services.py lines
141-174): id (142), status (147, 151), status_changed_at (152),
type (157, 169), pid (165). -/
def cleanupDeadAgentsAttrsRead : List String :=
  ["id", "status", "status_changed_at", "type", "pid"]

/-- Agent attribute read and assigned by CleanupService._tick_loop for
every agent whose status is in ACTIVE_STATUSES (services.py line 388,
the increment of active_duration). -/
def tickLoopAttrsWritten : List String :=
  ["active_duration"]

/-! ## Agent registry (services.py, class AgentManager, lines 185-320)

`self.agents: dict[str, Agent]` is embedded as an association list from
socket-id keys to Agent records, in insertion order, with dict-store
semantics (replace the existing key in place, else append). -/

abbrev Registry : Type := List (String × Agent)

/-- services.py lines 190-191, get_all_agents: the dict's values in order. -/
def getAllAgents (reg : Registry) : List Agent := reg.map Prod.snd

/-- services.py lines 199-203, find_agent_by_id: first (agent, socket_id)
pair whose agent id matches, else None. -/
def findAgentById (reg : Registry) (agent_id : String) : Option (Agent × String) :=
  (List.find? (fun kv => kv.2.id == agent_id) reg).map (fun kv => (kv.2, kv.1))

/-- services.py lines 205-209, find_agent_by_pid. -/
def findAgentByPid (reg : Registry) (pid : Nat) : Option (Agent × String) :=
  (List.find? (fun kv => kv.2.pid == some pid) reg).map (fun kv => (kv.2, kv.1))

/-- services.py lines 211-212, set_agent: Python dict store
`self.agents[socket_id] = agent`. -/
def setAgent (reg : Registry) (socket_id : String) (a : Agent) : Registry :=
  match reg with
  | [] => [(socket_id, a)]
  | kv :: rest =>
    if kv.1 == socket_id then (socket_id, a) :: rest else kv :: setAgent rest socket_id a

/-- services.py line 271: AgentManager.ACTIVE_STATUSES (a Python set;
embedded as the list of its members as written). -/
def activeStatuses : List String :=
  ["working", "waiting", "awaiting-permission", "permission-requested", "failed"]

/-- services.py lines 247-257, the mutation update_agent_tool applies to
the found agent: bump tool_calls, set current/last tool fields, then
append to recent_tools only when empty or the last entry differs, and
pop the front when the length exceeds 5. -/
def updateAgentToolCore (now : ℚ) (a : Agent) (tool_name : String)
    (tool_description : Option String) : Agent :=
  let a1 := { a with
    tool_calls := a.tool_calls + 1
    current_tool := some tool_name
    current_tool_description := tool_description
    last_tool_used := some tool_name
    last_tool_time := some now
    last_activity := now }
  if a1.recent_tools = [] ∨ a1.recent_tools.getLastD "" ≠ tool_name then
    let lst := a1.recent_tools ++ [tool_name]
    { a1 with recent_tools := if lst.length > 5 then lst.drop 1 else lst }
  else a1

/-- services.py lines 243-259, AgentManager.update_agent_tool:
look up by id; on a miss return False with no mutation. -/
def updateAgentTool (now : ℚ) (reg : Registry) (agent_id tool_name : String)
    (tool_description : Option String) : Registry × Bool :=
  match findAgentById reg agent_id with
  | none => (reg, false)
  | some (a, sid) =>
    (setAgent reg sid (updateAgentToolCore now a tool_name tool_description), true)

/-- services.py lines 265-267, the mutation clear_agent_tool applies. -/
def clearAgentToolCore (now : ℚ) (a : Agent) : Agent :=
  { a with current_tool := none, current_tool_description := none, last_activity := now }

/-- services.py lines 261-269, AgentManager.clear_agent_tool. -/
def clearAgentTool (now : ℚ) (reg : Registry) (agent_id : String) : Registry × Bool :=
  match findAgentById reg agent_id with
  | none => (reg, false)
  | some (a, sid) => (setAgent reg sid (clearAgentToolCore now a), true)

/-- services.py lines 277-285, the mutation update_agent_status applies:
status_changed_at is touched only when the status actually changes
(line 278-279); current_task/current_tool are cleared on entering idle
or offline (lines 282-284).  NOTE: line 279 assigns the attribute
status_changed_at, which the pydantic Agent model does not declare. -/
def updateAgentStatusCore (now : ℚ) (a : Agent) (status : String) : Agent :=
  let a1 := if a.status ≠ status then { a with status_changed_at := now } else a
  let a2 := { a1 with status := status, last_activity := now }
  if status = "idle" ∨ status = "offline" then
    { a2 with current_task := none, current_tool := none }
  else a2

/-- services.py lines 273-286, AgentManager.update_agent_status. -/
def updateAgentStatus (now : ℚ) (reg : Registry) (agent_id status : String) :
    Registry × Bool :=
  match findAgentById reg agent_id with
  | none => (reg, false)
  | some (a, sid) => (setAgent reg sid (updateAgentStatusCore now a status), true)

/-- services.py lines 292-294, the mutation update_agent_task applies. -/
def updateAgentTaskCore (now : ℚ) (a : Agent) (task : String) : Agent :=
  { a with current_task := some task, status := "working", last_activity := now }

/-- services.py lines 288-296, AgentManager.update_agent_task. -/
def updateAgentTask (now : ℚ) (reg : Registry) (agent_id task : String) :
    Registry × Bool :=
  match findAgentById reg agent_id with
  | none => (reg, false)
  | some (a, sid) => (setAgent reg sid (updateAgentTaskCore now a task), true)

/-! ## Stop-signal handler (routes.py, _handle_stop, lines 187-195) -/

/-- routes.py lines 189-191: subagents complete, all other agents cycle
back to idle; current_task and current_tool are cleared unconditionally. -/
def handleStopAgent (a : Agent) : Agent :=
  { a with
    status := if a.type = "subagent" then "completed" else "idle"
    current_task := none
    current_tool := none }

/-- routes.py lines 192-194: the task-queue side of _handle_stop. -/
def handleStopQueue (q : TaskQueue) : TaskQueue :=
  let q1 := if q.get "inProgress" > 0 then q.decrement "inProgress" else q
  q1.increment "completed"

/-! ## Session file watcher (session_watcher.py)

Only the pure decision logic is embedded: status inference from a parsed
JSONL record (_derive_status) and the enrichment step fed with a parsed
session state (_register_or_update_session).  A timestamp string is
embedded as `Option ℚ`: `some t` iff the string is present and
datetime.fromisoformat accepts it, `none` for absent or unparseable. -/

/-- session_watcher.py lines 36-37. -/
def IDLE_THRESHOLD_SECONDS : ℚ := 5 * 60

def OFFLINE_THRESHOLD_SECONDS : ℚ := 60 * 60

/-- The "data" sub-dict of a JSONL record, restricted to the keys
_derive_status consults ("hookEvent" and "type"). -/
structure JsonData where
  hookEvent : Option String := none
  dtype : Option String := none
  deriving DecidableEq, Repr

/-- One parsed JSONL record, restricted to the keys _derive_status
consults ("timestamp", "type", "data"). -/
structure JsonEntry where
  timestamp : Option ℚ := none
  etype : Option String := none
  data : Option JsonData := none
  deriving DecidableEq, Repr

/-- session_watcher.py line 290: `data.get("hookEvent") or data.get("type", "")`
(a present but empty "hookEvent" string is falsy and falls through). -/
def hookEventOf (d : JsonData) : String :=
  match d.hookEvent with
  | some s => if s ≠ "" then s else d.dtype.getD ""
  | none => d.dtype.getD ""

/-- session_watcher.py lines 286-300: the record-type heuristics of
_derive_status (the part after the timestamp-age checks);
`entry.get("data") or {}` maps a missing data dict to the empty one. -/
def deriveStatusFromType (e : JsonEntry) : String :=
  let d := e.data.getD {}
  if e.etype = some "progress" ∧
      hookEventOf d ∈ ["PreToolUse", "PostToolUse", "hook_progress"] then "working"
  else if e.etype = some "user" then "working"
  else if e.etype = some "assistant" then "idle"
  else "idle"

/-- session_watcher.py lines 267-300, SessionWatcher._derive_status:
timestamp age is checked first (lines 274-284); a parse failure
(`none`) falls through to the record-type heuristics. -/
def deriveStatus (now : ℚ) (e : JsonEntry) : String :=
  match e.timestamp with
  | some ts =>
    let age := now - ts
    if age > OFFLINE_THRESHOLD_SECONDS then "offline"
    else if age > IDLE_THRESHOLD_SECONDS then "idle"
    else deriveStatusFromType e
  | none => deriveStatusFromType e

/-- The dict returned by _parse_session_state (session_watcher.py lines
256-265), as consumed by _register_or_update_session. -/
structure SessionState where
  session_id : String
  cwd : Option String := none
  git_branch : Option String := none
  status : String := "idle"
  current_tool : Option String := none
  model : Option String := none
  last_activity : Option ℚ := none
  agent_name : String := ""
  deriving DecidableEq, Repr

/-- Python string-dict get. -/
def dictGet (d : List (String × String)) (k : String) : Option String :=
  (List.find? (fun kv => kv.1 == k) d).map Prod.snd

/-- Python string-dict store `d[k] = v`. -/
def dictSet (d : List (String × String)) (k v : String) : List (String × String) :=
  match d with
  | [] => [(k, v)]
  | kv :: rest => if kv.1 == k then (k, v) :: rest else kv :: dictSet rest k v

/-- Truthiness of an optional string (None and "" are falsy). -/
def strTruthy (o : Option String) : Bool :=
  match o with
  | some s => s ≠ ""
  | none => false

/-- Truthiness of the session_data dict (None and {} are falsy). -/
def sdTruthy (o : Option (List (String × String))) : Bool :=
  match o with
  | some l => ¬ l.isEmpty
  | none => false

/-- session_watcher.py lines 415-419: does this agent match the parsed
session — first by recorded sessionId, else by exact working-directory
match when the agent has no session metadata yet. -/
def sessionMatches (st : SessionState) (a : Agent) : Bool :=
  (sdTruthy a.session_data && (dictGet (a.session_data.getD []) "sessionId" == some st.session_id))
  || (strTruthy st.cwd && (a.working_directory == st.cwd) && !sdTruthy a.session_data)

/-- session_watcher.py lines 423-430: the enrichment applied to the
matched agent (fill session_data keys, refresh last_activity with the
parsed timestamp or now). -/
def enrichAgent (now : ℚ) (st : SessionState) (a : Agent) : Agent :=
  let lastAct := st.last_activity.getD now
  let sd0 := a.session_data.getD []
  let sd1 := dictSet sd0 "sessionId" st.session_id
  let sd2 := if strTruthy st.git_branch then dictSet sd1 "gitBranch" (st.git_branch.getD "") else sd1
  let sd3 := if strTruthy st.model then dictSet sd2 "model" (st.model.getD "") else sd2
  { a with session_data := some sd3, last_activity := lastAct }

/-- session_watcher.py lines 394-434, SessionWatcher._register_or_update_session:
find the first matching agent and enrich it in place (the store goes to
the socket key found by find_agent_by_id, guarded by `if existing_sid`);
with no match the observation is discarded and the registry untouched.
Never creates an agent. -/
def registerOrUpdateSession (now : ℚ) (st : SessionState) (reg : Registry) : Registry :=
  match List.find? (fun a => sessionMatches st a) (getAllAgents reg) with
  | none => reg
  | some a =>
    match findAgentById reg a.id with
    | some (_, sid) => setAgent reg sid (enrichAgent now st a)
    | none => reg

/-! ## Process scanner (services.py, scan_claude_processes, lines 84-128)

The OS process table is passed in as a list of per-process info records
(the fields psutil.process_iter is asked for), and the server's own
ancestor pid chain as a list. -/

/-- One entry of psutil.process_iter(["pid", "cmdline", "cwd", "name"]);
cwd may be missing (None). -/
structure ProcInfo where
  pid : Nat
  cmdline : List String
  cwd : Option String := none
  create_time : ℚ := 0
  deriving DecidableEq, Repr

/-- Python str.rstrip("/"): drop trailing slash characters. -/
def dropTrailingSlashes (s : String) : String :=
  ⟨(s.data.reverse.dropWhile (fun c => c = '/')).reverse⟩

/-- Python s.split("/")[-1] (for a string already stripped of trailing
slashes this is the suffix after the last '/'); also os.path.basename. -/
def afterLastSlash (s : String) : String :=
  ⟨s.data.foldl (fun acc c => if c = '/' then [] else acc ++ [c]) []⟩

/-- services.py lines 92-94: keep only processes whose argv[0], stripped
of trailing slashes and reduced to its base name, is exactly "claude". -/
def isClaudeProc (p : ProcInfo) : Bool :=
  match p.cmdline with
  | [] => false
  | c0 :: _ => afterLastSlash (dropTrailingSlashes c0) == "claude"

/-- services.py lines 109-122 (with create_agent defaults, lines
229-241): the Agent record built for a newly discovered process.
`proc.info.get("cwd") or ""` maps a missing cwd to "". -/
def createScanAgent (now : ℚ) (p : ProcInfo) : Agent :=
  let pidStr := Nat.repr p.pid
  let cwdStr := p.cwd.getD ""
  { id := pidStr
    socket_id := "scan-" ++ pidStr
    name := if cwdStr ≠ "" then afterLastSlash cwdStr else "Claude (" ++ pidStr ++ ")"
    type := "claude-code"
    status := "idle"
    working_directory := some cwdStr
    pid := some p.pid
    start_time := p.create_time
    last_activity := now }

/-- services.py line 86: `{agent.pid for agent in ... if agent.pid}` —
the pids bound to registry agents (pid None and the falsy pid 0 are
skipped). -/
def knownPids (reg : Registry) : List Nat :=
  (getAllAgents reg).filterMap (fun a =>
    match a.pid with
    | some p => if p ≠ 0 then some p else none
    | none => none)

/-- services.py lines 90-127: the scan loop.  State: registry, the
known-pid set, and the count of newly created agents. -/
def scanAux (now : ℚ) (ownTree : List Nat) :
    List ProcInfo → Registry → List Nat → Nat → Registry × List Nat × Nat
  | [], reg, known, found => (reg, known, found)
  | p :: rest, reg, known, found =>
    if ¬ isClaudeProc p then scanAux now ownTree rest reg known found
    else if p.pid ∈ ownTree then scanAux now ownTree rest reg known found
    else if p.pid ∈ known then scanAux now ownTree rest reg known found
    else if (findAgentById reg (Nat.repr p.pid)).isSome then
      scanAux now ownTree rest reg known found
    else
      scanAux now ownTree rest
        (setAgent reg ("scan-" ++ Nat.repr p.pid) (createScanAgent now p))
        (p.pid :: known) (found + 1)

/-- services.py lines 84-128, scan_claude_processes: returns the updated
registry and the number of agents created. -/
def scanClaudeProcesses (now : ℚ) (ownTree : List Nat) (procs : List ProcInfo)
    (reg : Registry) : Registry × Nat :=
  let r := scanAux now ownTree procs reg (knownPids reg) 0
  (r.1, r.2.2)

/-- Every registry entry stored under a scan key "scan-p" actually holds
the agent with id p — the shape scan_claude_processes itself establishes
(it stores the agent with id str(pid) under the key "scan-" + str(pid)). -/
def ScanConsistent (reg : Registry) : Prop :=
  ∀ kv ∈ reg, ∀ p : Nat, kv.1 = "scan-" ++ Nat.repr p → kv.2.id = Nat.repr p

/-! ## Theorems -/

theorem TaskQueue.nonneg_increment (q : TaskQueue) (s : String) (h : q.Nonneg) :
    (q.increment s).Nonneg := by
  obtain ⟨h1, h2, h3, h4⟩ := h
  unfold increment
  cases hn : normalize s with
  | none => exact ⟨h1, h2, h3, h4⟩
  | some k =>
    simp only
    split
    · unfold Nonneg setKey get lookup
      split_ifs <;> simp_all <;> omega
    · exact ⟨h1, h2, h3, h4⟩

theorem TaskQueue.nonneg_decrement (q : TaskQueue) (s : String) (h : q.Nonneg) :
    (q.decrement s).Nonneg := by
  obtain ⟨h1, h2, h3, h4⟩ := h
  unfold decrement
  cases hn : normalize s with
  | none => exact ⟨h1, h2, h3, h4⟩
  | some k =>
    simp only
    split
    · rename_i hcond
      unfold get lookup at hcond
      unfold Nonneg setKey get lookup
      split_ifs at hcond ⊢ <;> simp_all <;> omega
    · exact ⟨h1, h2, h3, h4⟩

theorem TaskQueue.nonneg_applyOp (q : TaskQueue) (op : QOp) (h : q.Nonneg) :
    (q.applyOp op).Nonneg := by
  cases op with
  | inc s => exact q.nonneg_increment s h
  | dec s => exact q.nonneg_decrement s h

theorem TaskQueue.nonneg_foldl (ops : List QOp) :
    ∀ q : TaskQueue, q.Nonneg → (TaskQueue.applyOps ops q).Nonneg := by
  induction ops with
  | nil => intro q h; exact h
  | cons op rest ih =>
    intro q h
    exact ih (q.applyOp op) (q.nonneg_applyOp op h)

/-- Claim C1: starting from the all-zero queue, every sequence of
increment/decrement calls keeps all four TaskCounters buckets
non-negative; a decrement of a bucket whose count is zero is a no-op;
and a status string outside the normalization table leaves every bucket
unchanged, on increment as well as on decrement. -/
theorem claim1_taskCounters_nonneg :
    (∀ ops : List QOp, (TaskQueue.applyOps ops TaskQueue.init).Nonneg) ∧
    (∀ (q : TaskQueue) (s k : String), normalize s = some k → q.get k = 0 →
      q.decrement s = q) ∧
    (∀ (q : TaskQueue) (s : String), normalize s = none →
      q.increment s = q ∧ q.decrement s = q) := by
  refine ⟨?_, ?_, ?_⟩
  · intro ops
    exact TaskQueue.nonneg_foldl ops TaskQueue.init ⟨le_refl 0, le_refl 0, le_refl 0, le_refl 0⟩
  · intro q s k hn hz
    simp [TaskQueue.decrement, hn, hz]
  · intro q s hn
    exact ⟨by simp [TaskQueue.increment, hn], by simp [TaskQueue.decrement, hn]⟩

/-- Witness for C1 at concrete inputs: decrementing the "pending" bucket
of the zero queue changes nothing, and incrementing with an off-table
status changes nothing. -/
theorem claim1_taskCounters_nonneg_witness :
    TaskQueue.decrement TaskQueue.init "pending" = TaskQueue.init ∧
    TaskQueue.increment TaskQueue.init "bogus" = TaskQueue.init :=
  ⟨claim1_taskCounters_nonneg.2.1 TaskQueue.init "pending" "pending" rfl rfl,
   (claim1_taskCounters_nonneg.2.2 TaskQueue.init "bogus" rfl).1⟩

/-- Claim C4: for a record with a parseable timestamp, _derive_status
returns "offline" whenever the record is more than one hour old,
"idle" whenever it is more than five minutes but at most one hour old
(both regardless of the record's type), and only for records at most
five minutes old does the record-type heuristic decide the result. -/
theorem claim4_status_age_precedence (now ts : ℚ) (e : JsonEntry)
    (h : e.timestamp = some ts) :
    (now - ts > OFFLINE_THRESHOLD_SECONDS → deriveStatus now e = "offline") ∧
    (now - ts ≤ OFFLINE_THRESHOLD_SECONDS → now - ts > IDLE_THRESHOLD_SECONDS →
      deriveStatus now e = "idle") ∧
    (now - ts ≤ IDLE_THRESHOLD_SECONDS → deriveStatus now e = deriveStatusFromType e) := by
  refine ⟨fun h1 => ?_, fun h1 h2 => ?_, fun h1 => ?_⟩ <;>
    simp only [deriveStatus, h, IDLE_THRESHOLD_SECONDS, OFFLINE_THRESHOLD_SECONDS] at * <;>
    split_ifs <;> first | rfl | linarith

/-- Witness for C4: a "user" (would-be working) record aged 4000s is
offline, aged 2000s is idle, aged 100s falls to the type heuristic. -/
theorem claim4_status_age_precedence_witness :
    deriveStatus 4000 { timestamp := some 0, etype := some "user" } = "offline" ∧
    deriveStatus 2000 { timestamp := some 0, etype := some "user" } = "idle" ∧
    deriveStatus 100 { timestamp := some 0, etype := some "user" }
      = deriveStatusFromType { timestamp := some 0, etype := some "user" } :=
  ⟨(claim4_status_age_precedence 4000 0 _ rfl).1 (by norm_num [OFFLINE_THRESHOLD_SECONDS]),
   (claim4_status_age_precedence 2000 0 _ rfl).2.1
     (by norm_num [OFFLINE_THRESHOLD_SECONDS]) (by norm_num [IDLE_THRESHOLD_SECONDS]),
   (claim4_status_age_precedence 100 0 _ rfl).2.2 (by norm_num [IDLE_THRESHOLD_SECONDS])⟩

theorem updateAgentToolCore_tool_calls (now : ℚ) (a : Agent) (t : String)
    (d : Option String) :
    (updateAgentToolCore now a t d).tool_calls = a.tool_calls + 1 := by
  unfold updateAgentToolCore
  dsimp only
  split <;> rfl

theorem updateAgentToolCore_recent_inv (now : ℚ) (a : Agent) (t : String)
    (d : Option String) (hlen : a.recent_tools.length ≤ 5)
    (hne : List.Chain' (· ≠ ·) a.recent_tools) :
    (updateAgentToolCore now a t d).recent_tools.length ≤ 5 ∧
      List.Chain' (· ≠ ·) (updateAgentToolCore now a t d).recent_tools := by
  unfold updateAgentToolCore
  dsimp only
  split
  · rename_i hg
    have hchain : List.Chain' (· ≠ ·) (a.recent_tools ++ [t]) := by
      rw [List.chain'_append]
      refine ⟨hne, List.chain'_singleton t, ?_⟩
      intro x hx y hy
      simp only [List.head?_cons, Option.mem_def, Option.some.injEq] at hy
      subst hy
      rcases hg with h0 | hlast
      · rw [h0] at hx
        simp at hx
      · have hx' : a.recent_tools.getLastD "" = x := by
          rw [List.getLastD_eq_getLast?, hx]
          rfl
        rw [hx'] at hlast
        exact hlast
    split
    · constructor
      · simp only [List.length_drop, List.length_append, List.length_cons,
          List.length_nil]
        omega
      · rw [List.drop_one]
        exact hchain.tail
    · rename_i hle
      simp only [List.length_append, List.length_cons, List.length_nil] at hle ⊢
      exact ⟨by omega, hchain⟩
  · exact ⟨hlen, hne⟩

theorem foldl_updateAgentToolCore_inv (calls : List (ℚ × String × Option String)) :
    ∀ a : Agent, a.recent_tools.length ≤ 5 → List.Chain' (· ≠ ·) a.recent_tools →
    ((calls.foldl (fun x c => updateAgentToolCore c.1 x c.2.1 c.2.2) a).recent_tools.length ≤ 5 ∧
     List.Chain' (· ≠ ·) (calls.foldl (fun x c => updateAgentToolCore c.1 x c.2.1 c.2.2) a).recent_tools ∧
     (calls.foldl (fun x c => updateAgentToolCore c.1 x c.2.1 c.2.2) a).tool_calls
       = a.tool_calls + calls.length) := by
  induction calls with
  | nil => intro a h1 h2; exact ⟨h1, h2, rfl⟩
  | cons c rest ih =>
    intro a h1 h2
    obtain ⟨g1, g2⟩ := updateAgentToolCore_recent_inv c.1 a c.2.1 c.2.2 h1 h2
    obtain ⟨r1, r2, r3⟩ := ih (updateAgentToolCore c.1 a c.2.1 c.2.2) g1 g2
    rw [List.foldl_cons]
    refine ⟨r1, r2, ?_⟩
    rw [r3, updateAgentToolCore_tool_calls, List.length_cons]
    omega

/-- Claim C5: from any agent whose recentTools already satisfies the
bound (in particular any freshly created agent, whose list is empty),
any sequence of updateTool calls keeps recentTools at most 5 long with
no two consecutive equal entries, and grows toolCalls by exactly the
number of calls; moreover a single call always bumps toolCalls by one,
leaves recentTools unchanged when the tool equals the last entry, and
otherwise appends and pops the front exactly when the length would
exceed 5. -/
theorem claim5_recent_tools_bounded (a : Agent)
    (calls : List (ℚ × String × Option String))
    (hlen : a.recent_tools.length ≤ 5)
    (hne : List.Chain' (· ≠ ·) a.recent_tools) :
    ((calls.foldl (fun x c => updateAgentToolCore c.1 x c.2.1 c.2.2) a).recent_tools.length ≤ 5 ∧
     List.Chain' (· ≠ ·) (calls.foldl (fun x c => updateAgentToolCore c.1 x c.2.1 c.2.2) a).recent_tools ∧
     (calls.foldl (fun x c => updateAgentToolCore c.1 x c.2.1 c.2.2) a).tool_calls
       = a.tool_calls + calls.length) ∧
    (∀ (now : ℚ) (b : Agent) (t : String) (d : Option String),
      (updateAgentToolCore now b t d).tool_calls = b.tool_calls + 1) ∧
    (∀ (now : ℚ) (b : Agent) (t : String) (d : Option String),
      b.recent_tools ≠ [] → b.recent_tools.getLastD "" = t →
      (updateAgentToolCore now b t d).recent_tools = b.recent_tools) ∧
    (∀ (now : ℚ) (b : Agent) (t : String) (d : Option String),
      (b.recent_tools = [] ∨ b.recent_tools.getLastD "" ≠ t) →
      (updateAgentToolCore now b t d).recent_tools =
        (if (b.recent_tools ++ [t]).length > 5 then (b.recent_tools ++ [t]).drop 1
         else b.recent_tools ++ [t])) := by
  refine ⟨foldl_updateAgentToolCore_inv calls a hlen hne, ?_, ?_, ?_⟩
  · intro now b t d
    exact updateAgentToolCore_tool_calls now b t d
  · intro now b t d hnil hlast
    unfold updateAgentToolCore
    dsimp only
    rw [if_neg]
    push_neg
    exact ⟨hnil, hlast⟩
  · intro now b t d hg
    unfold updateAgentToolCore
    dsimp only
    rw [if_pos hg]

/-- Witness for C5: two identical calls on a fresh agent leave a single
list entry, no duplicate, and toolCalls 2. -/
theorem claim5_recent_tools_bounded_witness :
    (([((0 : ℚ), "Read", (none : Option String)), ((0 : ℚ), "Read", (none : Option String))].foldl
        (fun x c => updateAgentToolCore c.1 x c.2.1 c.2.2)
        { id := "a1", socket_id := "s1" }).recent_tools.length ≤ 5 ∧
     List.Chain' (· ≠ ·) (([((0 : ℚ), "Read", (none : Option String)), ((0 : ℚ), "Read", (none : Option String))].foldl
        (fun x c => updateAgentToolCore c.1 x c.2.1 c.2.2)
        { id := "a1", socket_id := "s1" }).recent_tools) ∧
     (([((0 : ℚ), "Read", (none : Option String)), ((0 : ℚ), "Read", (none : Option String))].foldl
        (fun x c => updateAgentToolCore c.1 x c.2.1 c.2.2)
        { id := "a1", socket_id := "s1" }).tool_calls
       = ({ id := "a1", socket_id := "s1" } : Agent).tool_calls + 2) ∧
     (∀ (now : ℚ) (b : Agent) (t : String) (d : Option String),
       (updateAgentToolCore now b t d).tool_calls = b.tool_calls + 1) ∧
     (∀ (now : ℚ) (b : Agent) (t : String) (d : Option String),
       b.recent_tools ≠ [] → b.recent_tools.getLastD "" = t →
       (updateAgentToolCore now b t d).recent_tools = b.recent_tools) ∧
     (∀ (now : ℚ) (b : Agent) (t : String) (d : Option String),
       (b.recent_tools = [] ∨ b.recent_tools.getLastD "" ≠ t) →
       (updateAgentToolCore now b t d).recent_tools =
         (if (b.recent_tools ++ [t]).length > 5 then (b.recent_tools ++ [t]).drop 1
          else b.recent_tools ++ [t]))) := by
  have h := claim5_recent_tools_bounded { id := "a1", socket_id := "s1" }
    [((0 : ℚ), "Read", (none : Option String)), ((0 : ℚ), "Read", (none : Option String))]
    (by decide) (by decide)
  exact ⟨h.1.1, h.1.2.1, h.1.2.2, h.2.1, h.2.2.1, h.2.2.2⟩

theorem setAgent_length_mem (k : String) (v : Agent) :
    ∀ reg : Registry, k ∈ reg.map Prod.fst → (setAgent reg k v).length = reg.length := by
  intro reg
  induction reg with
  | nil => intro h; simp at h
  | cons kv rest ih =>
    intro h
    unfold setAgent
    split
    · simp
    · rename_i hne
      simp only [List.length_cons]
      have hk : k ∈ rest.map Prod.fst := by
        simp only [List.map_cons, List.mem_cons] at h
        rcases h with h | h
        · exact absurd (by simp [h] : (kv.1 == k) = true) hne
        · exact h
      rw [ih hk]

theorem findAgentById_some_mem_key (reg : Registry) (i : String) (a : Agent)
    (sid : String) (h : findAgentById reg i = some (a, sid)) :
    sid ∈ reg.map Prod.fst := by
  unfold findAgentById at h
  cases hf : List.find? (fun kv => kv.2.id == i) reg with
  | none => rw [hf] at h; simp at h
  | some kv =>
    rw [hf] at h
    simp only [Option.map_some', Option.some.injEq, Prod.mk.injEq] at h
    have hmem := List.mem_of_find?_eq_some hf
    rw [← h.2]
    exact List.mem_map_of_mem Prod.fst hmem

theorem registerOrUpdateSession_length (now : ℚ) (st : SessionState) (reg : Registry) :
    (registerOrUpdateSession now st reg).length = reg.length := by
  unfold registerOrUpdateSession
  cases hfind : List.find? (fun a => sessionMatches st a) (getAllAgents reg) with
  | none => rfl
  | some a =>
    dsimp only
    cases hid : findAgentById reg a.id with
    | none => rfl
    | some pair =>
      obtain ⟨b, sid⟩ := pair
      exact setAgent_length_mem sid (enrichAgent now st a) reg
        (findAgentById_some_mem_key reg a.id b sid hid)

/-- Claim C2: the session watcher's enrichment entry point never creates
an Agent: starting from a registry with zero agents, any sequence of
session observations still leaves zero agents; an observation matching
no existing agent (by session id or working directory) is discarded and
the registry is returned untouched; and on every registry the number of
agent records is preserved exactly. -/
theorem claim2_enrichment_never_creates :
    (∀ obs : List (ℚ × SessionState),
      obs.foldl (fun r o => registerOrUpdateSession o.1 o.2 r) ([] : Registry) = []) ∧
    (∀ (now : ℚ) (st : SessionState) (reg : Registry),
      (∀ a ∈ getAllAgents reg, sessionMatches st a = false) →
      registerOrUpdateSession now st reg = reg) ∧
    (∀ (now : ℚ) (st : SessionState) (reg : Registry),
      (registerOrUpdateSession now st reg).length = reg.length) := by
  have hnm : ∀ (now : ℚ) (st : SessionState) (reg : Registry),
      (∀ a ∈ getAllAgents reg, sessionMatches st a = false) →
      registerOrUpdateSession now st reg = reg := by
    intro now st reg h
    unfold registerOrUpdateSession
    have hnone : List.find? (fun a => sessionMatches st a) (getAllAgents reg) = none :=
      List.find?_eq_none.mpr (fun a ha => by simp [h a ha])
    rw [hnone]
  refine ⟨?_, hnm, fun now st reg => registerOrUpdateSession_length now st reg⟩
  intro obs
  induction obs with
  | nil => rfl
  | cons o rest ih =>
    rw [List.foldl_cons, hnm o.1 o.2 [] (by intro a ha; simp [getAllAgents] at ha)]
    exact ih

/-- Witness for C2: an observation against a one-agent registry with no
session metadata and a different working directory is discarded. -/
theorem claim2_enrichment_never_creates_witness :
    registerOrUpdateSession 0 { session_id := "s1" }
      [("k1", { id := "a1", socket_id := "k1" })] =
      [("k1", { id := "a1", socket_id := "k1" })] :=
  claim2_enrichment_never_creates.2.1 0 { session_id := "s1" }
    [("k1", { id := "a1", socket_id := "k1" })] (by decide)

/-- Claim C10: with an agent id bound to no registry record, each of
update_agent_tool, clear_agent_tool, update_agent_status and
update_agent_task returns False and leaves the registry exactly as it
was — the failed lookup performs no partial mutation. -/
theorem claim10_unknown_id_no_mutation (now : ℚ) (reg : Registry) (agent_id : String)
    (h : findAgentById reg agent_id = none) :
    (∀ (t : String) (d : Option String),
      updateAgentTool now reg agent_id t d = (reg, false)) ∧
    clearAgentTool now reg agent_id = (reg, false) ∧
    (∀ s : String, updateAgentStatus now reg agent_id s = (reg, false)) ∧
    (∀ task : String, updateAgentTask now reg agent_id task = (reg, false)) := by
  refine ⟨fun t d => ?_, ?_, fun s => ?_, fun task => ?_⟩ <;>
    simp [updateAgentTool, clearAgentTool, updateAgentStatus, updateAgentTask, h]

/-- Witness for C10 on a concrete one-agent registry and the unknown id
"zz". -/
theorem claim10_unknown_id_no_mutation_witness :
    updateAgentTool 0 [("k1", { id := "a1", socket_id := "k1" })] "zz" "Bash" none
      = ([("k1", { id := "a1", socket_id := "k1" })], false) ∧
    clearAgentTool 0 [("k1", { id := "a1", socket_id := "k1" })] "zz"
      = ([("k1", { id := "a1", socket_id := "k1" })], false) ∧
    updateAgentStatus 0 [("k1", { id := "a1", socket_id := "k1" })] "zz" "working"
      = ([("k1", { id := "a1", socket_id := "k1" })], false) ∧
    updateAgentTask 0 [("k1", { id := "a1", socket_id := "k1" })] "zz" "fix tests"
      = ([("k1", { id := "a1", socket_id := "k1" })], false) := by
  have h := claim10_unknown_id_no_mutation 0
    [("k1", { id := "a1", socket_id := "k1" })] "zz" (by decide)
  exact ⟨h.1 "Bash" none, h.2.1, h.2.2.1 "working", h.2.2.2 "fix tests"⟩

/-- Counterexample to claim C7 as stated: under _handle_stop a
non-subagent does not transition to "completed" (it goes to "idle"),
and a subagent does not keep its currentTask (it is cleared). -/
theorem claim7_stop_counterexample :
    (handleStopAgent
      { id := "a1", socket_id := "s1", type := "claude-code", status := "working",
        current_task := some "build", current_tool := some "Bash" }).status = "idle" ∧
    (handleStopAgent
      { id := "a1", socket_id := "s1", type := "claude-code", status := "working",
        current_task := some "build", current_tool := some "Bash" }).status ≠ "completed" ∧
    (handleStopAgent
      { id := "a2", socket_id := "s2", type := "subagent", status := "working",
        current_task := some "docs" }).current_task = none ∧
    (handleStopAgent
      { id := "a2", socket_id := "s2", type := "subagent", status := "working",
        current_task := some "docs" }).current_task ≠ some "docs" := by
  decide

/-- Claim C7 as amended: on a stop signal _handle_stop sends subagents to
"completed" and every other agent to "idle", and clears currentTask and
currentTool unconditionally, for every agent type. -/
theorem claim7_stop_transition (a : Agent) :
    (handleStopAgent a).status = (if a.type = "subagent" then "completed" else "idle") ∧
    (handleStopAgent a).current_task = none ∧
    (handleStopAgent a).current_tool = none :=
  ⟨rfl, rfl, rfl⟩

/-- Claim C9 (code bug): the sweep tick increments the attribute
active_duration for every agent whose status is in ACTIVE_STATUSES
(services.py line 388), but the pydantic Agent model declares no such
field, so the tick raises instead of advancing any agent's duration;
moreover the code's ACTIVE_STATUSES (services.py line 271) contains
"permission-requested" and not the claim's "paused". -/
theorem claim9_tick_writes_undeclared_field :
    "active_duration" ∈ tickLoopAttrsWritten ∧
    "active_duration" ∉ agentModelFields ∧
    "paused" ∉ activeStatuses ∧
    "permission-requested" ∈ activeStatuses := by
  decide

/-- Claim C3 (code bug): the completed-to-offline branch of
cleanup_dead_agents reads the attribute status_changed_at
(services.py line 152), but the pydantic Agent model declares no such
field, so the sweep raises instead of transitioning a completed agent. -/
theorem claim3_sweep_reads_undeclared_field :
    "status_changed_at" ∈ cleanupDeadAgentsAttrsRead ∧
    "status_changed_at" ∉ agentModelFields := by
  decide

theorem scanKey_inj (x y : String) (h : "scan-" ++ x = "scan-" ++ y) : x = y := by
  have hd := congrArg String.data h
  rw [String.data_append, String.data_append] at hd
  exact String.ext (List.append_cancel_left hd)

theorem findAgentById_none_iff (reg : Registry) (i : String) :
    findAgentById reg i = none ↔ ∀ kv ∈ reg, kv.2.id ≠ i := by
  unfold findAgentById
  rw [Option.map_eq_none', List.find?_eq_none]
  constructor
  · intro h kv hm
    have := h kv hm
    simpa using this
  · intro h kv hm
    simpa using h kv hm

theorem findAgentById_isSome_iff (reg : Registry) (i : String) :
    (findAgentById reg i).isSome = true ↔ ∃ kv ∈ reg, kv.2.id = i := by
  unfold findAgentById
  cases hf : List.find? (fun kv => kv.2.id == i) reg with
  | none =>
    simp only [Option.map_none', Option.isSome_none, Bool.false_eq_true, false_iff]
    rw [List.find?_eq_none] at hf
    rintro ⟨kv, hm, hid⟩
    exact hf kv hm (by simp [hid])
  | some kv =>
    simp only [Option.map_some', Option.isSome_some, true_iff]
    refine ⟨kv, List.mem_of_find?_eq_some hf, ?_⟩
    have := List.find?_some hf
    simpa using this

theorem mem_knownPids (reg : Registry) (p : Nat) :
    p ∈ knownPids reg ↔ ∃ kv ∈ reg, kv.2.pid = some p ∧ p ≠ 0 := by
  unfold knownPids getAllAgents
  rw [List.mem_filterMap]
  constructor
  · rintro ⟨a, ha, hm⟩
    obtain ⟨kv, hkv, rfl⟩ := List.mem_map.mp ha
    cases hp : kv.2.pid with
    | none => rw [hp] at hm; simp at hm
    | some q =>
      rw [hp] at hm
      simp only at hm
      split at hm
      · rename_i h0
        obtain rfl : q = p := by simpa using hm
        exact ⟨kv, hkv, hp, h0⟩
      · simp at hm
  · rintro ⟨kv, hkv, hpid, h0⟩
    refine ⟨kv.2, List.mem_map_of_mem Prod.snd hkv, ?_⟩
    rw [hpid]
    simp [h0]

theorem setAgent_fresh (k : String) (v : Agent) :
    ∀ reg : Registry, (∀ kv ∈ reg, kv.1 ≠ k) → setAgent reg k v = reg ++ [(k, v)] := by
  intro reg
  induction reg with
  | nil => intro _; rfl
  | cons kv rest ih =>
    intro h
    unfold setAgent
    rw [if_neg (by simp [h kv (List.mem_cons_self kv rest)]), List.cons_append,
      ih (fun kv' h' => h kv' (List.mem_cons_of_mem kv h'))]

/-- The invariants the scan loop maintains across one pass: scan-key
consistency is preserved, no existing entry is displaced, every eligible
process ends up covered (by the known-pid set or by an agent whose id is
its pid), and every known pid traces back to the initial set or to a
created agent. -/
theorem scanAux_spec (now : ℚ) (ownTree : List Nat) :
    ∀ (procs : List ProcInfo) (reg : Registry) (known : List Nat) (found : Nat),
      ScanConsistent reg →
      ScanConsistent (scanAux now ownTree procs reg known found).1 ∧
      (∀ kv ∈ reg, kv ∈ (scanAux now ownTree procs reg known found).1) ∧
      (∀ q ∈ procs, isClaudeProc q = true → q.pid ∉ ownTree →
        q.pid ∈ (scanAux now ownTree procs reg known found).2.1 ∨
          (findAgentById (scanAux now ownTree procs reg known found).1
            (Nat.repr q.pid)).isSome = true) ∧
      (∀ p ∈ (scanAux now ownTree procs reg known found).2.1,
        p ∈ known ∨ ∃ kv ∈ (scanAux now ownTree procs reg known found).1,
          kv.2.pid = some p ∧ kv.2.id = Nat.repr p) ∧
      (∀ p ∈ known, p ∈ (scanAux now ownTree procs reg known found).2.1) := by
  intro procs
  induction procs with
  | nil =>
    intro reg known found hsc
    simp only [scanAux]
    exact ⟨hsc, fun kv h => h, fun q hq => absurd hq (List.not_mem_nil q),
      fun p hp => Or.inl hp, fun p hp => hp⟩
  | cons q rest ih =>
    intro reg known found hsc
    by_cases h1 : isClaudeProc q = true
    case neg =>
      have hstep : scanAux now ownTree (q :: rest) reg known found
          = scanAux now ownTree rest reg known found := by
        simp [scanAux, h1]
      obtain ⟨s1, s2, s3, s4, s5⟩ := ih reg known found hsc
      rw [hstep]
      refine ⟨s1, s2, ?_, s4, s5⟩
      intro q' hq' hc ho
      rcases List.mem_cons.mp hq' with rfl | hq'
      · exact absurd hc h1
      · exact s3 q' hq' hc ho
    case pos =>
      by_cases h2 : q.pid ∈ ownTree
      · have hstep : scanAux now ownTree (q :: rest) reg known found
            = scanAux now ownTree rest reg known found := by
          simp [scanAux, h1, h2]
        obtain ⟨s1, s2, s3, s4, s5⟩ := ih reg known found hsc
        rw [hstep]
        refine ⟨s1, s2, ?_, s4, s5⟩
        intro q' hq' hc ho
        rcases List.mem_cons.mp hq' with rfl | hq'
        · exact absurd h2 ho
        · exact s3 q' hq' hc ho
      · by_cases h3 : q.pid ∈ known
        · have hstep : scanAux now ownTree (q :: rest) reg known found
              = scanAux now ownTree rest reg known found := by
            simp [scanAux, h1, h2, h3]
          obtain ⟨s1, s2, s3, s4, s5⟩ := ih reg known found hsc
          rw [hstep]
          refine ⟨s1, s2, ?_, s4, s5⟩
          intro q' hq' hc ho
          rcases List.mem_cons.mp hq' with rfl | hq'
          · exact Or.inl (s5 q'.pid h3)
          · exact s3 q' hq' hc ho
        · by_cases h4 : (findAgentById reg (Nat.repr q.pid)).isSome = true
          · have hstep : scanAux now ownTree (q :: rest) reg known found
                = scanAux now ownTree rest reg known found := by
              simp [scanAux, h1, h2, h3, h4]
            obtain ⟨s1, s2, s3, s4, s5⟩ := ih reg known found hsc
            rw [hstep]
            refine ⟨s1, s2, ?_, s4, s5⟩
            intro q' hq' hc ho
            rcases List.mem_cons.mp hq' with rfl | hq'
            · obtain ⟨kv, hm, hid⟩ := (findAgentById_isSome_iff reg (Nat.repr q'.pid)).mp h4
              exact Or.inr ((findAgentById_isSome_iff _ _).mpr ⟨kv, s2 kv hm, hid⟩)
            · exact s3 q' hq' hc ho
          · -- creation step
            have hnone : findAgentById reg (Nat.repr q.pid) = none := by
              cases hh : findAgentById reg (Nat.repr q.pid)
              · rfl
              · rw [hh] at h4; simp at h4
            have hfresh : ∀ kv ∈ reg, kv.1 ≠ "scan-" ++ Nat.repr q.pid := by
              intro kv hm heq
              have hid := hsc kv hm q.pid heq
              exact ((findAgentById_none_iff reg (Nat.repr q.pid)).mp hnone) kv hm hid
            have hstep : scanAux now ownTree (q :: rest) reg known found
                = scanAux now ownTree rest
                    (reg ++ [("scan-" ++ Nat.repr q.pid, createScanAgent now q)])
                    (q.pid :: known) (found + 1) := by
              simp only [scanAux]
              rw [if_neg (by simpa using h1), if_neg h2, if_neg h3,
                if_neg (by simpa using h4), setAgent_fresh _ _ reg hfresh]
            have hsc' : ScanConsistent
                (reg ++ [("scan-" ++ Nat.repr q.pid, createScanAgent now q)]) := by
              intro kv hm p' heq
              rcases List.mem_append.mp hm with hm | hm
              · exact hsc kv hm p' heq
              · obtain rfl := List.mem_singleton.mp hm
                have : Nat.repr q.pid = Nat.repr p' := scanKey_inj _ _ heq
                rw [← this]
                rfl
            obtain ⟨s1, s2, s3, s4, s5⟩ := ih
              (reg ++ [("scan-" ++ Nat.repr q.pid, createScanAgent now q)])
              (q.pid :: known) (found + 1) hsc'
            rw [hstep]
            have hnew : ("scan-" ++ Nat.repr q.pid, createScanAgent now q)
                ∈ (scanAux now ownTree rest
                    (reg ++ [("scan-" ++ Nat.repr q.pid, createScanAgent now q)])
                    (q.pid :: known) (found + 1)).1 :=
              s2 _ (List.mem_append.mpr (Or.inr (List.mem_singleton.mpr rfl)))
            refine ⟨s1, ?_, ?_, ?_, ?_⟩
            · intro kv hm
              exact s2 kv (List.mem_append.mpr (Or.inl hm))
            · intro q' hq' hc ho
              rcases List.mem_cons.mp hq' with rfl | hq'
              · exact Or.inr ((findAgentById_isSome_iff _ _).mpr ⟨_, hnew, rfl⟩)
              · exact s3 q' hq' hc ho
            · intro p hp
              rcases s4 p hp with hk | hex
              · rcases List.mem_cons.mp hk with rfl | hk
                · exact Or.inr ⟨_, hnew, rfl, rfl⟩
                · exact Or.inl hk
              · exact Or.inr hex
            · intro p hp
              exact s5 p (List.mem_cons_of_mem q.pid hp)

/-- If every eligible process is already covered, a scan pass is the
identity: no agent is created and nothing is returned. -/
theorem scanAux_noop (now : ℚ) (ownTree : List Nat) :
    ∀ (procs : List ProcInfo) (reg : Registry) (known : List Nat) (found : Nat),
      (∀ q ∈ procs, isClaudeProc q = true → q.pid ∉ ownTree →
        q.pid ∈ known ∨ (findAgentById reg (Nat.repr q.pid)).isSome = true) →
      scanAux now ownTree procs reg known found = (reg, known, found) := by
  intro procs
  induction procs with
  | nil => intro reg known found _; simp [scanAux]
  | cons q rest ih =>
    intro reg known found h
    have hrest : ∀ q' ∈ rest, isClaudeProc q' = true → q'.pid ∉ ownTree →
        q'.pid ∈ known ∨ (findAgentById reg (Nat.repr q'.pid)).isSome = true :=
      fun q' hq' => h q' (List.mem_cons_of_mem q hq')
    by_cases h1 : isClaudeProc q = true
    · by_cases h2 : q.pid ∈ ownTree
      · have : scanAux now ownTree (q :: rest) reg known found
            = scanAux now ownTree rest reg known found := by simp [scanAux, h1, h2]
        rw [this]; exact ih reg known found hrest
      · rcases h q (List.mem_cons_self q rest) h1 h2 with h3 | h4
        · have : scanAux now ownTree (q :: rest) reg known found
              = scanAux now ownTree rest reg known found := by simp [scanAux, h1, h2, h3]
          rw [this]; exact ih reg known found hrest
        · have : scanAux now ownTree (q :: rest) reg known found
              = scanAux now ownTree rest reg known found := by simp [scanAux, h1, h2, h4]
          rw [this]; exact ih reg known found hrest
    · have : scanAux now ownTree (q :: rest) reg known found
          = scanAux now ownTree rest reg known found := by simp [scanAux, h1]
      rw [this]; exact ih reg known found hrest

/-- Counterexample to claim C8 as stated over every registry state: with
an existing entry stored under the scan key "scan-5" but holding an
agent of a different id ("x") that owns pid 7, the first scan pass
overwrites that entry when it registers pid 5, so the second pass no
longer knows pid 7 and creates a new agent for it, returning 1. -/
theorem claim8_scan_idempotence_counterexample :
    (scanClaudeProcesses 0 []
      [{ pid := 5, cmdline := ["claude"], cwd := some "" },
       { pid := 7, cmdline := ["claude"] }]
      (scanClaudeProcesses 0 []
        [{ pid := 5, cmdline := ["claude"], cwd := some "" },
         { pid := 7, cmdline := ["claude"] }]
        [("scan-5", { id := "x", socket_id := "scan-5", pid := some 7 })]).1).2 = 1 ∧
    (scanClaudeProcesses 0 []
      [{ pid := 5, cmdline := ["claude"], cwd := some "" },
       { pid := 7, cmdline := ["claude"] }]
      (scanClaudeProcesses 0 []
        [{ pid := 5, cmdline := ["claude"], cwd := some "" },
         { pid := 7, cmdline := ["claude"] }]
        [("scan-5", { id := "x", socket_id := "scan-5", pid := some 7 })]).1).2 ≠ 0 := by
  decide

/-- Claim C8 as amended: on a scan-consistent registry (every entry
keyed "scan-p" holds the agent with id p — the shape the scanner itself
produces), running the Process Scanner a second time over the same
process table creates zero agents and returns 0, leaving the registry
exactly as the first pass left it. -/
theorem claim8_scan_idempotent (now1 now2 : ℚ) (ownTree : List Nat)
    (procs : List ProcInfo) (reg : Registry) (hsc : ScanConsistent reg) :
    scanClaudeProcesses now2 ownTree procs (scanClaudeProcesses now1 ownTree procs reg).1
      = ((scanClaudeProcesses now1 ownTree procs reg).1, 0) := by
  obtain ⟨s1, s2, s3, s4, s5⟩ := scanAux_spec now1 ownTree procs reg (knownPids reg) 0 hsc
  have hcov : ∀ q ∈ procs, isClaudeProc q = true → q.pid ∉ ownTree →
      q.pid ∈ knownPids (scanAux now1 ownTree procs reg (knownPids reg) 0).1 ∨
        (findAgentById (scanAux now1 ownTree procs reg (knownPids reg) 0).1
          (Nat.repr q.pid)).isSome = true := by
    intro q hq hc ho
    rcases s3 q hq hc ho with hk | hf
    · rcases s4 q.pid hk with hk0 | ⟨kv, hm, hpid, hid⟩
      · obtain ⟨kv, hm, hpid, h0⟩ := (mem_knownPids reg q.pid).mp hk0
        exact Or.inl ((mem_knownPids _ q.pid).mpr ⟨kv, s2 kv hm, hpid, h0⟩)
      · exact Or.inr ((findAgentById_isSome_iff _ _).mpr ⟨kv, hm, hid⟩)
    · exact Or.inr hf
  simp only [scanClaudeProcesses]
  rw [scanAux_noop now2 ownTree procs _ _ 0 hcov]

/-- Witness for C8's amended theorem: rescanning one fresh claude
process over the registry the first scan produced creates nothing. -/
theorem claim8_scan_idempotent_witness :
    scanClaudeProcesses 0 [] [{ pid := 9, cmdline := ["claude"], cwd := some "/repo/app" }]
      (scanClaudeProcesses 0 []
        [{ pid := 9, cmdline := ["claude"], cwd := some "/repo/app" }] []).1
      = ((scanClaudeProcesses 0 []
          [{ pid := 9, cmdline := ["claude"], cwd := some "/repo/app" }] []).1, 0) :=
  claim8_scan_idempotent 0 0 []
    [{ pid := 9, cmdline := ["claude"], cwd := some "/repo/app" }] []
    (fun kv h => absurd h (List.not_mem_nil kv))

/-- Claim C6 (code bug): update_agent_status assigns the attribute
status_changed_at when the status differs (services.py line 279), but
the pydantic Agent model declares no such field, so the assignment
raises instead of recording the transition time. -/
theorem claim6_update_status_writes_undeclared_field :
    "status_changed_at" ∈ updateAgentStatusAttrsWritten ∧
    "status_changed_at" ∉ agentModelFields := by
  decide

end MinionOrchestra
